import Mathlib

/-!
Verification of the linTAS controller (src/linTAS/main.c) and the libTAS
thread-interposition layer (src/libTAS/threadwrappers.h).

The controller is embedded as pure state-passing functions: socket sends
become a trace of messages, socket receives become parameters of the call
(an 8-byte receive that never delivers data is modelled as a `none`
response, matching a failed recv that leaves the destination buffer
untouched), and console input (scanf) becomes lists of entered values.
-/

namespace LibTAS

/-- The fields of struct TasFlags used by src/linTAS/main.c:
running (toggled by the play/pause hotkey and by command 7) and
speed_divisor (written by command 9). -/
structure TasFlags where
  running : Bool
  speed_divisor : Nat
  deriving DecidableEq, Repr

/-- Global state of the controller process in main.c: the TasFlags
globals, the frame_counter global (unsigned long, 8 bytes), and the
32-byte keyboard_state buffer. -/
structure CtrlState where
  tasflags : TasFlags
  frame_counter : Nat
  keyboard_state : List Nat
  deriving DecidableEq, Repr

/-- One message written to the socket by proceed_command, tagged with
its payload kind. Msg.size gives the byte count passed to send. -/
inductive Msg where
  | opcode (c : Nat)
  | inputSnapshot (ks : List Nat)
  | divisor (v : Nat)
  | filename (f : String)
  | firstFrame (n : Nat)
  deriving DecidableEq, Repr

/-- Byte count of each send call in proceed_command:
sizeof(unsigned int) = 4 for the opcode and the speed divisor,
32 for keyboard_state, 1024 for filename_buffer,
sizeof(unsigned long) = 8 for first_frame. -/
def Msg.size : Msg → Nat
  | .opcode _ => 4
  | .inputSnapshot _ => 32
  | .divisor _ => 4
  | .filename _ => 1024
  | .firstFrame _ => 8

/-- External inputs consumed by one proceed_command call: the 8-byte
socket response to an advance (none = no data arrives, recv leaves
frame_counter untouched), the successive values scanf stores into
tasflags.speed_divisor for command 9, the console inputs of command 10,
and the filename plus 1-byte success flag of command 11. -/
structure Inputs where
  frameResp : Option Nat
  divisorEntries : List Nat
  saveFilename : String
  firstFrame : Nat
  loadFilename : String
  loadResp : Nat
  deriving DecidableEq, Repr

/-- Result of one proceed_command call: the updated globals, the trace of
sends, the trace of recv calls as (byte count, delivered value or none),
the C return value, the number of speed-divisor prompts printed, and the
successive values stored into tasflags.speed_divisor by command 9. -/
structure CmdResult where
  st : CtrlState
  sends : List Msg
  recvs : List (Nat × Option Nat)
  ret : Nat
  divPrompts : Nat
  divHistory : List Nat
  deriving DecidableEq, Repr

/-- The do/while loop of command 9: keep reading entries while the stored
value is zero. Returns the accepted nonzero value together with the
number of loop iterations (prompts), or none when every entry is zero
(the C loop would then never terminate). -/
def scanLoop : List Nat → Option (Nat × Nat)
  | [] => none
  | v :: rest =>
    if v = 0 then (scanLoop rest).map (fun p => (p.1, p.2 + 1)) else some (v, 1)

/-- The successive values scanf stores into tasflags.speed_divisor during
the command-9 loop, in order, up to and including the accepted nonzero
value (the whole list of entries when all are rejected). -/
def divisorHistory : List Nat → List Nat
  | [] => []
  | v :: rest => if v = 0 then v :: divisorHistory rest else [v]

/-- Embedding of proceed_command from src/linTAS/main.c. Command 0
returns immediately; a command above 11 prints and returns; otherwise the
4-byte opcode is sent and the switch runs. Commands 1 to 6 hit the empty
default case. The result is none exactly when the command-9 loop never
sees a nonzero entry and the C code would loop forever. -/
def proceed_command (command : Nat) (st : CtrlState) (ins : Inputs) :
    Option CmdResult :=
  if command = 0 then
    some ⟨st, [], [], 0, 0, []⟩
  else if 11 < command then
    some ⟨st, [], [], 0, 0, []⟩
  else
    let op := Msg.opcode command
    if command = 7 then
      some ⟨{ st with tasflags := { st.tasflags with running := !st.tasflags.running } },
            [op], [], 0, 0, []⟩
    else if command = 8 then
      let fc := match ins.frameResp with
        | some v => v
        | none => st.frame_counter
      some ⟨{ st with frame_counter := fc },
            [op, Msg.inputSnapshot st.keyboard_state], [(8, ins.frameResp)], 0, 0, []⟩
    else if command = 9 then
      match scanLoop ins.divisorEntries with
      | none => none
      | some (v, p) =>
        some ⟨{ st with tasflags := { st.tasflags with speed_divisor := v } },
              [op, Msg.divisor v], [], 0, p, 0 :: divisorHistory ins.divisorEntries⟩
    else if command = 10 then
      some ⟨st, [op, Msg.filename ins.saveFilename, Msg.firstFrame ins.firstFrame],
            [], 0, 0, []⟩
    else if command = 11 then
      some ⟨st, [op, Msg.filename ins.loadFilename], [(1, some ins.loadResp)], 0, 0, []⟩
    else
      some ⟨st, [op], [], 0, 0, []⟩

/-- A key-press event seen by the X event loop in main: the frame-advance
hotkey, the play/pause hotkey, or any other key. -/
inductive KeyEvent where
  | frameAdvance
  | playPause
  | otherKey
  deriving DecidableEq, Repr

/-- The variables the inner XPending event loop can modify: the pending
command, the TasFlags globals, and the keyboard_state buffer. -/
structure EvState where
  command : Nat
  tasflags : TasFlags
  keyboard_state : List Nat
  deriving DecidableEq, Repr

/-- One KeyPress event, from main.c lines 96 to 109: the frame-advance
hotkey snapshots the keymap and sets command to 8; the play/pause hotkey
toggles tasflags.running; other keys do nothing. -/
def processEvent (keymap : List Nat) (s : EvState) (e : KeyEvent) : EvState :=
  match e with
  | .frameAdvance => { s with keyboard_state := keymap, command := 8 }
  | .playPause => { s with tasflags := { s.tasflags with running := !s.tasflags.running } }
  | .otherKey => s

/-- The inner while XPending loop over this iteration's key events. -/
def processEvents (keymap : List Nat) (s : EvState) (es : List KeyEvent) : EvState :=
  es.foldl (processEvent keymap) s

/-- External inputs of one main-loop iteration: the key events delivered
by X, the physical keyboard snapshot XQueryKeymap would read, and the
inputs of the proceed_command call. -/
structure IterInput where
  events : List KeyEvent
  keymap : List Nat
  ins : Inputs
  deriving DecidableEq, Repr

/-- Result of one main-loop iteration: the state, the pending command for
the next iteration, the socket traces, and whether the loop breaks. -/
structure IterOut where
  st : CtrlState
  command : Nat
  sends : List Msg
  recvs : List (Nat × Option Nat)
  brk : Bool
  deriving DecidableEq, Repr

/-- One iteration of the while loop of main, lines 82 to 122: drain the
X event queue, snapshot the keymap when running, call proceed_command,
break when it returns nonzero, otherwise set the pending command to 8
when running and to 0 when paused. -/
def loopIter (st : CtrlState) (command : Nat) (it : IterInput) : Option IterOut :=
  let ev := processEvents it.keymap ⟨command, st.tasflags, st.keyboard_state⟩ it.events
  let st1 : CtrlState := { tasflags := ev.tasflags,
                           frame_counter := st.frame_counter,
                           keyboard_state := ev.keyboard_state }
  let st2 := if st1.tasflags.running then { st1 with keyboard_state := it.keymap } else st1
  match proceed_command ev.command st2 it.ins with
  | none => none
  | some r =>
    if r.ret ≠ 0 then
      some ⟨r.st, ev.command, r.sends, r.recvs, true⟩
    else
      some ⟨r.st, if r.st.tasflags.running then 8 else 0, r.sends, r.recvs, false⟩

/-- Error channel of the overridden pthread entry points: they return an
int error code; a usage-contract violation is reported through it
(spec section 7), a join or detach of an unknown id fails likewise. -/
inductive UsageError where
  | contractViolation
  | noSuchThread
  deriving DecidableEq, Repr

/-- Modelled from the spec: the join/detach half of a ThreadRecord.
The bodies of the overridden pthread_join and pthread_detach are not
under src (threadwrappers.h only declares them); spec section 3 states
that exactly one of join or detach may ever be invoked on a record. -/
inductive JDStatus where
  | fresh
  | joinedRec
  | detachedRec
  deriving DecidableEq, Repr

/-- Modelled from the spec: one registry record, identified by an opaque
handle unique for the process lifetime (spec section 3). -/
structure ThreadRecord where
  tid : Nat
  jd : JDStatus
  deriving DecidableEq, Repr

/-- Look up the join/detach status of the record with the given id. -/
def lookupRec : List ThreadRecord → Nat → Option JDStatus
  | [], _ => none
  | r :: rs, id => if r.tid = id then some r.jd else lookupRec rs id

/-- Overwrite the join/detach status of the record with the given id. -/
def updateRec : List ThreadRecord → Nat → JDStatus → List ThreadRecord
  | [], _, _ => []
  | r :: rs, id, s => (if r.tid = id then { r with jd := s } else r) :: updateRec rs id s

/-- Modelled from the spec: registry operation join(id) of spec section
4.2 — fails if the record is already detached or already joined by
another caller, otherwise marks it joined. The blocking until ZOMBIE and
the exit status are not relevant to the join/detach exclusion. -/
def joinOp (reg : List ThreadRecord) (id : Nat) :
    Except UsageError (List ThreadRecord) :=
  match lookupRec reg id with
  | none => .error .noSuchThread
  | some .fresh => .ok (updateRec reg id .joinedRec)
  | some .joinedRec => .error .contractViolation
  | some .detachedRec => .error .contractViolation

/-- Modelled from the spec: registry operation detach(id) of spec
section 4.2 — fails if already joined or already detached. -/
def detachOp (reg : List ThreadRecord) (id : Nat) :
    Except UsageError (List ThreadRecord) :=
  match lookupRec reg id with
  | none => .error .noSuchThread
  | some .fresh => .ok (updateRec reg id .detachedRec)
  | some .joinedRec => .error .contractViolation
  | some .detachedRec => .error .contractViolation

/-- A join or detach invocation on a given thread id. -/
inductive JDOp where
  | joinCall (id : Nat)
  | detachCall (id : Nat)
  deriving DecidableEq, Repr

/-- The thread id an operation targets. -/
def JDOp.targetId : JDOp → Nat
  | .joinCall id => id
  | .detachCall id => id

/-- Keep the old registry when an operation reports an error. -/
def orKeep (reg : List ThreadRecord) :
    Except UsageError (List ThreadRecord) → List ThreadRecord
  | .ok reg2 => reg2
  | .error _ => reg

/-- Apply one operation: a failing call reports its error to the caller
and leaves the registry unchanged (spec section 7: a usage-contract
violation is not a crash). -/
def runOp (reg : List ThreadRecord) (op : JDOp) : List ThreadRecord :=
  match op with
  | .joinCall id => orKeep reg (joinOp reg id)
  | .detachCall id => orKeep reg (detachOp reg id)

/-- Apply a whole sequence of join/detach invocations. -/
def runOps (reg : List ThreadRecord) : List JDOp → List ThreadRecord
  | [] => reg
  | op :: rest => runOps (runOp reg op) rest

/-- C type expressions appearing in the prototypes declared by
src/libTAS/threadwrappers.h. startRoutinePtr is the function pointer
type taking a void pointer and returning a void pointer. -/
inductive CType where
  | void
  | int
  | constCharPtr
  | voidPtr
  | voidPtrPtr
  | intPtr
  | pthreadT
  | pthreadTPtr
  | pthreadAttrConstPtr
  | startRoutinePtr
  | pthreadCondPtr
  | pthreadMutexPtr
  | timespecConstPtr
  | semPtr
  | sdlThreadPtr
  | sdlThreadFunction
  deriving DecidableEq, Repr

/-- A C function signature: return type, argument types in order, and
whether the declaration carries the empty exception specification
written as throw() in the header. -/
structure CSig where
  ret : CType
  args : List CType
  nothrow : Bool
  deriving DecidableEq, Repr

/-- A declaration of the libtas namespace in threadwrappers.h: the
symbol name, its signature, and whether it carries OVERRIDE. -/
structure CDecl where
  name : String
  sig : CSig
  overridden : Bool
  deriving DecidableEq, Repr

/-- Transcription of every declaration in the libtas namespace of
src/libTAS/threadwrappers.h, lines 34 to 162, in order. -/
def libtasDecls : List CDecl :=
  [ ⟨"SDL_CreateThread", ⟨.sdlThreadPtr, [.sdlThreadFunction, .constCharPtr, .voidPtr], false⟩, true⟩,
    ⟨"SDL_WaitThread", ⟨.void, [.sdlThreadPtr, .intPtr], false⟩, true⟩,
    ⟨"SDL_DetachThread", ⟨.void, [.sdlThreadPtr], false⟩, true⟩,
    ⟨"pthread_create", ⟨.int, [.pthreadTPtr, .pthreadAttrConstPtr, .startRoutinePtr, .voidPtr], true⟩, true⟩,
    ⟨"pthread_exit", ⟨.void, [.voidPtr], false⟩, true⟩,
    ⟨"pthread_join", ⟨.int, [.pthreadT, .voidPtrPtr], false⟩, true⟩,
    ⟨"pthread_detach", ⟨.int, [.pthreadT], true⟩, true⟩,
    ⟨"pthread_tryjoin_np", ⟨.int, [.pthreadT, .voidPtrPtr], true⟩, true⟩,
    ⟨"pthread_timedjoin_np", ⟨.int, [.pthreadT, .voidPtrPtr, .timespecConstPtr], false⟩, true⟩,
    ⟨"pthread_cond_signal", ⟨.int, [.pthreadCondPtr], true⟩, true⟩,
    ⟨"pthread_cond_broadcast", ⟨.int, [.pthreadCondPtr], true⟩, true⟩,
    ⟨"pthread_cond_wait", ⟨.int, [.pthreadCondPtr, .pthreadMutexPtr], false⟩, true⟩,
    ⟨"pthread_cond_timedwait", ⟨.int, [.pthreadCondPtr, .pthreadMutexPtr, .timespecConstPtr], false⟩, true⟩,
    ⟨"pthread_setcancelstate", ⟨.int, [.int, .intPtr], false⟩, true⟩,
    ⟨"pthread_setcanceltype", ⟨.int, [.int, .intPtr], false⟩, true⟩,
    ⟨"pthread_cancel", ⟨.int, [.pthreadT], false⟩, true⟩,
    ⟨"pthread_testcancel", ⟨.void, [], false⟩, true⟩,
    ⟨"sem_timedwait", ⟨.int, [.semPtr, .timespecConstPtr], false⟩, true⟩,
    ⟨"sem_trywait", ⟨.int, [.semPtr], true⟩, true⟩ ]

/-- The sixteen intercepted entry points named by the contract of spec
section 4.1, by platform symbol: thread create, thread exit, join,
detach, try-join, timed-join, condition-signal, condition-broadcast,
condition-wait, timed condition-wait, cancel-state set, cancel-type set,
cancel request, test-cancel, timed semaphore-wait, try semaphore-wait. -/
def interceptedNames : List String :=
  [ "pthread_create", "pthread_exit", "pthread_join", "pthread_detach",
    "pthread_tryjoin_np", "pthread_timedjoin_np",
    "pthread_cond_signal", "pthread_cond_broadcast",
    "pthread_cond_wait", "pthread_cond_timedwait",
    "pthread_setcancelstate", "pthread_setcanceltype",
    "pthread_cancel", "pthread_testcancel",
    "sem_timedwait", "sem_trywait" ]

/-- Modelled from the spec: the platform prototypes being overridden
(the glibc pthread.h and semaphore.h declarations, which are not part of
src/), as documented by the platform contract the spec refers to. -/
def platformSig : String → Option CSig
  | "pthread_create" => some ⟨.int, [.pthreadTPtr, .pthreadAttrConstPtr, .startRoutinePtr, .voidPtr], true⟩
  | "pthread_exit" => some ⟨.void, [.voidPtr], false⟩
  | "pthread_join" => some ⟨.int, [.pthreadT, .voidPtrPtr], false⟩
  | "pthread_detach" => some ⟨.int, [.pthreadT], true⟩
  | "pthread_tryjoin_np" => some ⟨.int, [.pthreadT, .voidPtrPtr], true⟩
  | "pthread_timedjoin_np" => some ⟨.int, [.pthreadT, .voidPtrPtr, .timespecConstPtr], false⟩
  | "pthread_cond_signal" => some ⟨.int, [.pthreadCondPtr], true⟩
  | "pthread_cond_broadcast" => some ⟨.int, [.pthreadCondPtr], true⟩
  | "pthread_cond_wait" => some ⟨.int, [.pthreadCondPtr, .pthreadMutexPtr], false⟩
  | "pthread_cond_timedwait" => some ⟨.int, [.pthreadCondPtr, .pthreadMutexPtr, .timespecConstPtr], false⟩
  | "pthread_setcancelstate" => some ⟨.int, [.int, .intPtr], false⟩
  | "pthread_setcanceltype" => some ⟨.int, [.int, .intPtr], false⟩
  | "pthread_cancel" => some ⟨.int, [.pthreadT], false⟩
  | "pthread_testcancel" => some ⟨.void, [], false⟩
  | "sem_timedwait" => some ⟨.int, [.semPtr, .timespecConstPtr], false⟩
  | "sem_trywait" => some ⟨.int, [.semPtr], true⟩
  | _ => none

/-- True when the header declares an OVERRIDE replacement with exactly
the platform signature for the given symbol. -/
def declaresOverrideFor (n : String) : Bool :=
  libtasDecls.any (fun d => d.name == n && d.overridden && platformSig n == some d.sig)

/-! Concrete fixtures used by witnesses. -/

/-- A paused controller state with divisor 1 and frame counter 0. -/
def st0 : CtrlState := ⟨⟨false, 1⟩, 0, List.replicate 32 0⟩

/-- A running controller state with divisor 1 and frame counter 7. -/
def stRun : CtrlState := ⟨⟨true, 1⟩, 7, List.replicate 32 0⟩

/-- A paused controller state whose stored speed divisor is 5. -/
def st5 : CtrlState := ⟨⟨false, 5⟩, 0, List.replicate 32 0⟩

/-- Concrete inputs: an 8-byte response with value 1, a single nonzero
divisor entry, and a load that reports failure. -/
def ins0 : Inputs := ⟨some 1, [3], "save", 5, "load", 0⟩

/-- Concrete inputs whose divisor entries start with a rejected zero. -/
def ins5 : Inputs := ⟨some 1, [0, 3], "save", 5, "load", 0⟩

/-- A concrete iteration input with no key events. -/
def it0 : IterInput := ⟨[], List.replicate 32 0, ins0⟩

/-- The result of processing a command that performs no work. -/
def r0 : CmdResult := ⟨st0, [], [], 0, 0, []⟩

/-- The result of processing command 5 from st0. -/
def rOp5 : CmdResult := ⟨st0, [Msg.opcode 5], [], 0, 0, []⟩

/-- The result of processing command 11 from st0 with inputs ins0. -/
def r11 : CmdResult := ⟨st0, [Msg.opcode 11, Msg.filename "load"], [(1, some 0)], 0, 0, []⟩

/-- The result of processing command 8 from st0 with inputs ins0. -/
def r8 : CmdResult :=
  ⟨⟨⟨false, 1⟩, 1, List.replicate 32 0⟩,
   [Msg.opcode 8, Msg.inputSnapshot (List.replicate 32 0)], [(8, some 1)], 0, 0, []⟩

/-- The result of processing command 9 from st0 with inputs ins0. -/
def r9 : CmdResult :=
  ⟨⟨⟨false, 3⟩, 0, List.replicate 32 0⟩,
   [Msg.opcode 9, Msg.divisor 3], [], 0, 1, [0, 3]⟩

/-- The iteration output of a running state that auto-advances. -/
def o8 : IterOut :=
  ⟨⟨⟨true, 1⟩, 1, List.replicate 32 0⟩, 8,
   [Msg.opcode 8, Msg.inputSnapshot (List.replicate 32 0)], [(8, some 1)], false⟩

/-! Helper lemmas about proceed_command. -/

theorem proceed_zero (st : CtrlState) (ins : Inputs) :
    proceed_command 0 st ins = some ⟨st, [], [], 0, 0, []⟩ := rfl

theorem proceed_gt11 (c : Nat) (st : CtrlState) (ins : Inputs) (hc : 11 < c) :
    proceed_command c st ins = some ⟨st, [], [], 0, 0, []⟩ := by
  unfold proceed_command
  rw [if_neg (by omega : ¬ c = 0), if_pos hc]

theorem proceed_ret_zero (c : Nat) (st : CtrlState) (ins : Inputs) (r : CmdResult)
    (h : proceed_command c st ins = some r) : r.ret = 0 := by
  unfold proceed_command at h
  repeat' split at h
  all_goals first
    | (cases h; rfl)
    | cases h

/-- C8: a command value above 11 is ignored: no send, no receive, no
state change, and the zero return keeps the main loop running. -/
theorem unknown_command_ignored (c : Nat) (st : CtrlState) (ins : Inputs) (r : CmdResult)
    (hc : 11 < c) (h : proceed_command c st ins = some r) :
    r.st = st ∧ r.sends = [] ∧ r.recvs = [] ∧ r.ret = 0 := by
  rw [proceed_gt11 c st ins hc] at h
  cases h
  exact ⟨rfl, rfl, rfl, rfl⟩

theorem unknown_command_ignored_witness :
    r0.st = st0 ∧ r0.sends = [] ∧ r0.recvs = [] ∧ r0.ret = 0 :=
  unknown_command_ignored 12 st0 ins0 r0 (by decide) rfl

/-- C2 counterexample: processing command 0 sends nothing over the
socket (in particular not the opcode) and proceed_command returns 0, so
the break in main is not taken and the loop continues; a full paused
iteration with pending command 0 confirms the loop does not terminate. -/
theorem cmd0_counterexample :
    proceed_command 0 st0 ins0 = some r0
    ∧ r0.sends = []
    ∧ r0.ret = 0
    ∧ loopIter st0 0 it0 = some ⟨st0, 0, [], [], false⟩ :=
  ⟨rfl, rfl, rfl, rfl⟩

/-- C2 amended: processing command 0 performs no socket traffic and
leaves the state unchanged, proceed_command returns 0 on every path, and
consequently no main-loop iteration ever breaks the loop (the close call
after the loop is unreachable through command processing). -/
theorem cmd0_no_exit_amended :
    (∀ st ins, proceed_command 0 st ins = some ⟨st, [], [], 0, 0, []⟩)
    ∧ (∀ c st ins r, proceed_command c st ins = some r → r.ret = 0)
    ∧ (∀ st c it o, loopIter st c it = some o → o.brk = false) := by
  refine ⟨fun st ins => rfl, fun c st ins r h => proceed_ret_zero c st ins r h, ?_⟩
  intro st c it o h
  simp only [loopIter] at h
  split at h
  · cases h
  · rename_i r hp
    split at h
    · rename_i hret
      exact absurd (proceed_ret_zero _ _ _ r hp) hret
    · cases h
      rfl

theorem cmd0_no_exit_witness : r0.ret = 0 :=
  cmd0_no_exit_amended.2.1 0 st0 ins0 r0 rfl

theorem proceed_eleven (st : CtrlState) (ins : Inputs) :
    proceed_command 11 st ins =
      some ⟨st, [Msg.opcode 11, Msg.filename ins.loadFilename],
            [(1, some ins.loadResp)], 0, 0, []⟩ := rfl

/-- C7: a load command whose 1-byte success flag is 0 leaves the whole
controller state (frame counter and pause/run flag included) unchanged;
its socket traffic is the opcode send, the 1024-byte filename send, and
the one-byte receive. -/
theorem load_fail_no_state_change (st : CtrlState) (ins : Inputs) (r : CmdResult)
    (h : proceed_command 11 st ins = some r) (h0 : ins.loadResp = 0) :
    r.st.frame_counter = st.frame_counter
    ∧ r.st.tasflags.running = st.tasflags.running
    ∧ r.st = st
    ∧ r.sends = [Msg.opcode 11, Msg.filename ins.loadFilename]
    ∧ r.sends.map Msg.size = [4, 1024]
    ∧ r.recvs = [(1, some 0)] := by
  rw [proceed_eleven] at h
  cases h
  exact ⟨rfl, rfl, rfl, rfl, rfl, by rw [h0]⟩

theorem load_fail_no_state_change_witness :
    r11.st.frame_counter = st0.frame_counter
    ∧ r11.st.tasflags.running = st0.tasflags.running
    ∧ r11.st = st0
    ∧ r11.sends = [Msg.opcode 11, Msg.filename "load"]
    ∧ r11.sends.map Msg.size = [4, 1024]
    ∧ r11.recvs = [(1, some 0)] :=
  load_fail_no_state_change st0 ins0 r11 rfl rfl

theorem proceed_eight_some (st : CtrlState) (ins : Inputs) (v : Nat)
    (hv : ins.frameResp = some v) :
    proceed_command 8 st ins =
      some ⟨{ st with frame_counter := v },
            [Msg.opcode 8, Msg.inputSnapshot st.keyboard_state],
            [(8, some v)], 0, 0, []⟩ := by
  unfold proceed_command
  rw [hv]
  rfl

theorem proceed_eight_none (st : CtrlState) (ins : Inputs)
    (hv : ins.frameResp = none) :
    proceed_command 8 st ins =
      some ⟨{ st with frame_counter := st.frame_counter },
            [Msg.opcode 8, Msg.inputSnapshot st.keyboard_state],
            [(8, none)], 0, 0, []⟩ := by
  unfold proceed_command
  rw [hv]
  rfl

/-- C3: processing command 8 sends exactly the 4-byte opcode followed by
the 32-byte keyboard snapshot; when the 8-byte response carrying v
arrives, the single receive is those 8 bytes and the stored frame
counter becomes v. -/
theorem advance_exchange (st : CtrlState) (ins : Inputs) (r : CmdResult)
    (h : proceed_command 8 st ins = some r) :
    r.sends = [Msg.opcode 8, Msg.inputSnapshot st.keyboard_state]
    ∧ r.sends.map Msg.size = [4, 32]
    ∧ (∀ v, ins.frameResp = some v → r.recvs = [(8, some v)] ∧ r.st.frame_counter = v) := by
  cases hv : ins.frameResp with
  | none =>
    rw [proceed_eight_none st ins hv] at h
    cases h
    refine ⟨rfl, rfl, fun v hv2 => ?_⟩
    cases hv2
  | some w =>
    rw [proceed_eight_some st ins w hv] at h
    cases h
    refine ⟨rfl, rfl, fun v hv2 => ?_⟩
    cases hv2
    exact ⟨rfl, rfl⟩

theorem advance_exchange_witness :
    r8.sends = [Msg.opcode 8, Msg.inputSnapshot (List.replicate 32 0)]
    ∧ r8.sends.map Msg.size = [4, 32]
    ∧ r8.recvs = [(8, some 1)]
    ∧ r8.st.frame_counter = 1 := by
  obtain ⟨h1, h2, h3⟩ := advance_exchange st0 ins0 r8 rfl
  exact ⟨h1, h2, (h3 1 rfl).1, (h3 1 rfl).2⟩

theorem frame_unchanged_ne8 (c : Nat) (st : CtrlState) (ins : Inputs) (r : CmdResult)
    (h : proceed_command c st ins = some r) (h8 : c ≠ 8) :
    r.st.frame_counter = st.frame_counter := by
  unfold proceed_command at h
  repeat' split at h
  all_goals first
    | (cases h; rfl)
    | (exact absurd (by assumption : c = 8) h8)
    | cases h

theorem frame_unchanged_noresp (c : Nat) (st : CtrlState) (ins : Inputs) (r : CmdResult)
    (h : proceed_command c st ins = some r) (hn : ins.frameResp = none) :
    r.st.frame_counter = st.frame_counter := by
  unfold proceed_command at h
  rw [hn] at h
  repeat' split at h
  all_goals try cases h
  all_goals first
    | rfl
    | simp_all

theorem loop_frame_unchanged_noresp (st : CtrlState) (c : Nat) (it : IterInput)
    (o : IterOut) (h : loopIter st c it = some o) (hn : it.ins.frameResp = none) :
    o.st.frame_counter = st.frame_counter := by
  simp only [loopIter] at h
  split at h
  · cases h
  · rename_i r hp
    have hfc : r.st.frame_counter = st.frame_counter := by
      split at hp
      · have h2 := frame_unchanged_noresp _ _ _ r hp hn
        exact h2
      · have h2 := frame_unchanged_noresp _ _ _ r hp hn
        exact h2
    split at h
    · cases h
      exact hfc
    · cases h
      exact hfc

/-- C1: the stored frame counter changes only through a successful
advance: any processed command other than 8 leaves it unchanged, a
command-8 call whose 8-byte response never arrives leaves it unchanged,
and a whole main-loop iteration without an 8-byte response leaves it
unchanged. -/
theorem frame_counter_only_advance :
    (∀ c st ins r, proceed_command c st ins = some r → c ≠ 8 →
       r.st.frame_counter = st.frame_counter)
    ∧ (∀ c st ins r, proceed_command c st ins = some r → ins.frameResp = none →
       r.st.frame_counter = st.frame_counter)
    ∧ (∀ st c it o, loopIter st c it = some o → it.ins.frameResp = none →
       o.st.frame_counter = st.frame_counter) :=
  ⟨fun c st ins r h h8 => frame_unchanged_ne8 c st ins r h h8,
   fun c st ins r h hn => frame_unchanged_noresp c st ins r h hn,
   fun st c it o h hn => loop_frame_unchanged_noresp st c it o h hn⟩

theorem frame_counter_only_advance_witness :
    rOp5.st.frame_counter = st0.frame_counter :=
  frame_counter_only_advance.1 5 st0 ins0 rOp5 rfl (by decide)

theorem scanLoop_spec (l : List Nat) (v p : Nat) (h : scanLoop l = some (v, p)) :
    v ≠ 0 ∧ 1 ≤ p ∧ divisorHistory l = List.replicate (p - 1) 0 ++ [v] := by
  induction l generalizing v p with
  | nil => cases h
  | cons x rest ih =>
    unfold scanLoop at h
    split at h
    · rename_i hx
      cases hr : scanLoop rest with
      | none =>
        rw [hr] at h
        cases h
      | some q =>
        cases q with
        | mk w p2 =>
          rw [hr, Option.map_some'] at h
          cases h
          obtain ⟨hv, hp, hhist⟩ := ih w p2 hr
          refine ⟨hv, by omega, ?_⟩
          obtain ⟨k, rfl⟩ : ∃ k, p2 = k + 1 := ⟨p2 - 1, by omega⟩
          unfold divisorHistory
          rw [if_pos hx, hhist, hx]
          simp [List.replicate_succ]
    · rename_i hx
      cases h
      refine ⟨hx, le_refl 1, ?_⟩
      unfold divisorHistory
      rw [if_neg hx]
      simp

theorem proceed_nine_some (st : CtrlState) (ins : Inputs) (v p : Nat)
    (hscan : scanLoop ins.divisorEntries = some (v, p)) :
    proceed_command 9 st ins =
      some ⟨{ st with tasflags := { st.tasflags with speed_divisor := v } },
            [Msg.opcode 9, Msg.divisor v], [], 0, p,
            0 :: divisorHistory ins.divisorEntries⟩ := by
  unfold proceed_command
  rw [hscan]
  rfl

theorem proceed_nine_none (st : CtrlState) (ins : Inputs)
    (hscan : scanLoop ins.divisorEntries = none) :
    proceed_command 9 st ins = none := by
  unfold proceed_command
  rw [hscan]
  rfl

/-- C4: command 9 never sends a zero speed divisor: it keeps prompting,
one prompt per rejected zero entry plus the final accepted one, and only
sends once a nonzero value is entered (when every entry is zero the loop
never terminates and nothing is ever sent). -/
theorem divisor_never_zero :
    (∀ st ins v p r, scanLoop ins.divisorEntries = some (v, p) →
       proceed_command 9 st ins = some r →
       v ≠ 0
       ∧ r.sends = [Msg.opcode 9, Msg.divisor v]
       ∧ r.sends.map Msg.size = [4, 4]
       ∧ r.divPrompts = p
       ∧ (∀ w, Msg.divisor w ∈ r.sends → w ≠ 0))
    ∧ (∀ st ins, scanLoop ins.divisorEntries = none →
       proceed_command 9 st ins = none) := by
  constructor
  · intro st ins v p r hscan h
    rw [proceed_nine_some st ins v p hscan] at h
    cases h
    obtain ⟨hv, hp, hhist⟩ := scanLoop_spec _ _ _ hscan
    refine ⟨hv, rfl, rfl, rfl, ?_⟩
    intro w hw
    simp only [List.mem_cons, List.mem_singleton, List.not_mem_nil] at hw
    rcases hw with h1 | h1 | h1
    · cases h1
    · cases h1
      exact hv
    · cases h1
  · intro st ins hscan
    exact proceed_nine_none st ins hscan

theorem divisor_never_zero_witness :
    (3 : Nat) ≠ 0
    ∧ r9.sends = [Msg.opcode 9, Msg.divisor 3]
    ∧ r9.sends.map Msg.size = [4, 4]
    ∧ r9.divPrompts = 1 := by
  obtain ⟨h1, h2, h3, h4, h5⟩ := divisor_never_zero.1 st0 ins0 3 1 r9 rfl rfl
  exact ⟨h1, h2, h3, h4⟩

/-- The result of processing command 9 from st5 with inputs ins5 (a
rejected zero entry followed by the accepted entry 3). -/
def r95 : CmdResult :=
  ⟨⟨⟨false, 3⟩, 0, List.replicate 32 0⟩,
   [Msg.opcode 9, Msg.divisor 3], [], 0, 2, [0, 0, 3]⟩

/-- C5 counterexample: with prior stored divisor 5 and entered values 0
then 3, the successive values stored into tasflags.speed_divisor during
the command are 0, 0, 3: while the zero entry is being rejected the
stored divisor is 0 (the command cleared it on entry), not the prior
value 5. -/
theorem divisor_prior_counterexample :
    st5.tasflags.speed_divisor = 5
    ∧ proceed_command 9 st5 ins5 = some r95
    ∧ r95.divHistory = [0, 0, 3]
    ∧ r95.divHistory.head? = some 0
    ∧ (0 : Nat) ≠ 5 :=
  ⟨rfl, rfl, rfl, rfl, by decide⟩

/-- C5 amended: during an opcode-9 command the stored speed divisor does
not keep its prior value: it is set to 0 when the command starts, stores
0 again for each rejected zero entry, and becomes the first nonzero
entered value when accepted. -/
theorem divisor_cleared_amended (st : CtrlState) (ins : Inputs) (v p : Nat)
    (r : CmdResult) (hscan : scanLoop ins.divisorEntries = some (v, p))
    (h : proceed_command 9 st ins = some r) :
    r.divHistory = 0 :: (List.replicate (p - 1) 0 ++ [v])
    ∧ v ≠ 0
    ∧ r.st.tasflags.speed_divisor = v := by
  rw [proceed_nine_some st ins v p hscan] at h
  cases h
  obtain ⟨hv, hp, hhist⟩ := scanLoop_spec _ _ _ hscan
  exact ⟨by rw [hhist], hv, rfl⟩

theorem divisor_cleared_witness :
    r95.divHistory = 0 :: (List.replicate 1 0 ++ [3])
    ∧ (3 : Nat) ≠ 0
    ∧ r95.st.tasflags.speed_divisor = 3 :=
  divisor_cleared_amended st5 ins5 3 2 r95 rfl rfl

theorem lookup_update_self (reg : List ThreadRecord) (id : Nat) (s2 : JDStatus) :
    lookupRec (updateRec reg id s2) id = (lookupRec reg id).map (fun _ => s2) := by
  induction reg with
  | nil => rfl
  | cons r rs ih =>
    by_cases hr : r.tid = id
    · simp [updateRec, lookupRec, hr]
    · simp [updateRec, lookupRec, hr, ih]

theorem lookup_update_other (reg : List ThreadRecord) (id id2 : Nat) (s2 : JDStatus)
    (h : id ≠ id2) :
    lookupRec (updateRec reg id2 s2) id = lookupRec reg id := by
  induction reg with
  | nil => rfl
  | cons r rs ih =>
    by_cases hr : r.tid = id2
    · have h2 : ¬ id2 = id := fun he => h he.symm
      simp [updateRec, lookupRec, hr, h2, ih]
    · simp only [updateRec, if_neg hr, lookupRec, ih]

theorem joinOp_ok (reg reg1 : List ThreadRecord) (id : Nat)
    (h : joinOp reg id = .ok reg1) :
    lookupRec reg id = some .fresh ∧ reg1 = updateRec reg id .joinedRec := by
  unfold joinOp at h
  split at h
  · cases h
  · cases h
    exact ⟨by assumption, rfl⟩
  · cases h
  · cases h

theorem detachOp_ok (reg reg1 : List ThreadRecord) (id : Nat)
    (h : detachOp reg id = .ok reg1) :
    lookupRec reg id = some .fresh ∧ reg1 = updateRec reg id .detachedRec := by
  unfold detachOp at h
  split at h
  · cases h
  · cases h
    exact ⟨by assumption, rfl⟩
  · cases h
  · cases h

theorem joinOp_error_nonfresh (reg : List ThreadRecord) (id : Nat) (s : JDStatus)
    (h : lookupRec reg id = some s) (hs : s ≠ .fresh) :
    joinOp reg id = .error .contractViolation := by
  unfold joinOp
  rw [h]
  cases s with
  | fresh => exact absurd rfl hs
  | joinedRec => rfl
  | detachedRec => rfl

theorem detachOp_error_nonfresh (reg : List ThreadRecord) (id : Nat) (s : JDStatus)
    (h : lookupRec reg id = some s) (hs : s ≠ .fresh) :
    detachOp reg id = .error .contractViolation := by
  unfold detachOp
  rw [h]
  cases s with
  | fresh => exact absurd rfl hs
  | joinedRec => rfl
  | detachedRec => rfl

theorem runOp_preserves (reg : List ThreadRecord) (id : Nat) (s : JDStatus)
    (h : lookupRec reg id = some s) (hs : s ≠ .fresh) (op : JDOp) :
    lookupRec (runOp reg op) id = some s := by
  cases op with
  | joinCall id2 =>
    show lookupRec (orKeep reg (joinOp reg id2)) id = some s
    cases hj : joinOp reg id2 with
    | ok reg2 =>
      show lookupRec reg2 id = some s
      obtain ⟨hl, rfl⟩ := joinOp_ok reg reg2 id2 hj
      by_cases hid : id2 = id
      · subst hid
        rw [h] at hl
        cases hl
        exact absurd rfl hs
      · rw [lookup_update_other reg id id2 .joinedRec (fun he => hid he.symm)]
        exact h
    | error e =>
      exact h
  | detachCall id2 =>
    show lookupRec (orKeep reg (detachOp reg id2)) id = some s
    cases hj : detachOp reg id2 with
    | ok reg2 =>
      show lookupRec reg2 id = some s
      obtain ⟨hl, rfl⟩ := detachOp_ok reg reg2 id2 hj
      by_cases hid : id2 = id
      · subst hid
        rw [h] at hl
        cases hl
        exact absurd rfl hs
      · rw [lookup_update_other reg id id2 .detachedRec (fun he => hid he.symm)]
        exact h
    | error e =>
      exact h

theorem runOps_preserves (ops : List JDOp) (reg : List ThreadRecord) (id : Nat)
    (s : JDStatus) (h : lookupRec reg id = some s) (hs : s ≠ .fresh) :
    lookupRec (runOps reg ops) id = some s := by
  induction ops generalizing reg with
  | nil => exact h
  | cons op rest ih => exact ih (runOp reg op) (runOp_preserves reg id s h hs op)

/-- C6: once a join or a detach has succeeded on a thread record, every
later join or detach invocation on the same id — after any sequence of
further join/detach calls on the registry — reports a usage-contract
error through the error-return channel; in particular a join on an
already-detached id always errors. -/
theorem join_detach_exclusive (reg reg1 : List ThreadRecord) (id : Nat)
    (ops : List JDOp)
    (h : joinOp reg id = .ok reg1 ∨ detachOp reg id = .ok reg1) :
    joinOp (runOps reg1 ops) id = .error .contractViolation
    ∧ detachOp (runOps reg1 ops) id = .error .contractViolation := by
  have hl : ∃ s, lookupRec reg1 id = some s ∧ s ≠ JDStatus.fresh := by
    rcases h with hj | hd
    · obtain ⟨hf, rfl⟩ := joinOp_ok reg reg1 id hj
      refine ⟨.joinedRec, ?_, by decide⟩
      rw [lookup_update_self, hf]
      rfl
    · obtain ⟨hf, rfl⟩ := detachOp_ok reg reg1 id hd
      refine ⟨.detachedRec, ?_, by decide⟩
      rw [lookup_update_self, hf]
      rfl
  obtain ⟨s, hls, hs⟩ := hl
  have hp := runOps_preserves ops reg1 id s hls hs
  exact ⟨joinOp_error_nonfresh _ id s hp hs,
         detachOp_error_nonfresh _ id s hp hs⟩

/-- A registry with a single fresh record of id 1. -/
def reg0 : List ThreadRecord := [⟨1, .fresh⟩]

/-- The registry reg0 after a successful join of id 1. -/
def reg0j : List ThreadRecord := [⟨1, .joinedRec⟩]

theorem join_detach_exclusive_witness :
    joinOp (runOps reg0j [JDOp.detachCall 1]) 1 = .error .contractViolation
    ∧ detachOp (runOps reg0j [JDOp.detachCall 1]) 1 = .error .contractViolation :=
  join_detach_exclusive reg0 reg0j 1 [JDOp.detachCall 1] (Or.inl rfl)

/-- C9: the libtas namespace of threadwrappers.h declares, for each of
the sixteen intercepted entry points named by the contract, an OVERRIDE
replacement whose signature (return type, argument types, exception
specification) is identical to the overridden platform prototype. -/
theorem override_signatures :
    interceptedNames.length = 16
    ∧ (interceptedNames.all (fun n => declaresOverrideFor n)) = true := by
  constructor
  · rfl
  · decide

theorem processEvents_command (keymap : List Nat) (s : EvState)
    (es : List KeyEvent) :
    (processEvents keymap s es).command = s.command
    ∨ (processEvents keymap s es).command = 8 := by
  induction es generalizing s with
  | nil => exact Or.inl rfl
  | cons e rest ih =>
    cases e with
    | frameAdvance =>
      rcases ih { s with keyboard_state := keymap, command := 8 } with h | h
      · exact Or.inr h
      · exact Or.inr h
    | playPause =>
      rcases ih { s with tasflags := { s.tasflags with running := !s.tasflags.running } } with h | h
      · exact Or.inl h
      · exact Or.inr h
    | otherKey =>
      exact ih s

theorem processEvents_command_keep (keymap : List Nat) (s : EvState)
    (es : List KeyEvent) (h : ∀ e ∈ es, e ≠ KeyEvent.frameAdvance) :
    (processEvents keymap s es).command = s.command := by
  induction es generalizing s with
  | nil => rfl
  | cons e rest ih =>
    have he : e ≠ KeyEvent.frameAdvance := h e (List.mem_cons_self e rest)
    have hrest : ∀ x ∈ rest, x ≠ KeyEvent.frameAdvance :=
      fun x hx => h x (List.mem_cons_of_mem e hx)
    cases e with
    | frameAdvance => exact absurd rfl he
    | playPause => exact ih _ hrest
    | otherKey => exact ih _ hrest

theorem proceed_eight_sends (st : CtrlState) (ins : Inputs) (r : CmdResult)
    (h : proceed_command 8 st ins = some r) :
    r.sends = [Msg.opcode 8, Msg.inputSnapshot st.keyboard_state] := by
  cases hv : ins.frameResp with
  | none =>
    rw [proceed_eight_none st ins hv] at h
    cases h
    rfl
  | some w =>
    rw [proceed_eight_some st ins w hv] at h
    cases h
    rfl

/-- C10: when a main-loop iteration ends with the running flag true the
pending command is 8, and an iteration starting with pending command 8
sends the advance opcode whatever events arrive; when an iteration ends
with the flag false the pending command resets to 0, and an iteration
starting at 0 in which no frame-advance hotkey arrives sends and
receives nothing. -/
theorem loop_autoadvance :
    (∀ st c it o, loopIter st c it = some o → o.brk = false →
       (o.st.tasflags.running = true → o.command = 8)
       ∧ (o.st.tasflags.running = false → o.command = 0))
    ∧ (∀ st it o, loopIter st 8 it = some o →
       o.sends.head? = some (Msg.opcode 8))
    ∧ (∀ st it o, loopIter st 0 it = some o →
       (∀ e ∈ it.events, e ≠ KeyEvent.frameAdvance) →
       o.sends = [] ∧ o.recvs = []) := by
  refine ⟨?_, ?_, ?_⟩
  · intro st c it o h hbrk
    simp only [loopIter] at h
    split at h
    · cases h
    · rename_i r hp
      split at h
      · cases h
        simp at hbrk
      · cases h
        constructor
        · intro hrun
          simp_all
        · intro hrun
          simp_all
  · intro st it o h
    have hcmd : (processEvents it.keymap ⟨8, st.tasflags, st.keyboard_state⟩ it.events).command = 8 := by
      rcases processEvents_command it.keymap ⟨8, st.tasflags, st.keyboard_state⟩ it.events with hc | hc
      · exact hc
      · exact hc
    simp only [loopIter] at h
    rw [hcmd] at h
    split at h
    · cases h
    · rename_i r hp
      have hs := proceed_eight_sends _ _ r hp
      split at h
      · cases h
        rw [hs]
        rfl
      · cases h
        rw [hs]
        rfl
  · intro st it o h hev
    have hcmd : (processEvents it.keymap ⟨0, st.tasflags, st.keyboard_state⟩ it.events).command = 0 :=
      processEvents_command_keep it.keymap ⟨0, st.tasflags, st.keyboard_state⟩ it.events hev
    simp only [loopIter] at h
    rw [hcmd] at h
    split at h
    · cases h
    · rename_i r heq
      have hzero : ¬ (r.ret ≠ 0) := fun hne => hne (proceed_ret_zero _ _ _ r heq)
      rw [if_neg hzero] at h
      rw [proceed_zero] at heq
      cases heq
      cases h
      exact ⟨rfl, rfl⟩

theorem loop_autoadvance_witness :
    o8.sends.head? = some (Msg.opcode 8) ∧ o8.command = 8 :=
  ⟨loop_autoadvance.2.1 stRun it0 o8 rfl,
   (loop_autoadvance.1 stRun 8 it0 o8 rfl rfl).1 rfl⟩

end LibTAS
